import Mathlib

/-!
Shallow embedding of the `sistema_votacion` ink! contract
(`src/sistema_votacion/{fecha,enums,usuario,votante,candidato,eleccion,lib}.rs`).

Conventions used throughout:

* `AccountId` is modelled as `Nat` (an opaque identity in the source).
* ink! `Mapping` is modelled as an association list read through `List.lookup`;
  the first binding wins, which matches `Mapping::insert` overwrite semantics.
* `StorageVec<Eleccion>` is a `List Eleccion`; `StorageVec::get` is `·[·]?`
  and `StorageVec::set` is `List.set`.
* A Rust expression that can panic is modelled with `Option` (`none` = panic /
  wasm trap).  ink! contracts are compiled with overflow checks on, so integer
  over- and underflow panic; the only such site reachable with a single small
  input is the index expression `id_votacion - 1` on `u32` (modelled
  explicitly below), while the counters `votos : u32` and `id : u32` are
  modelled as unbounded `Nat` because reaching their bound requires on the
  order of 2^32 prior successful calls.
* Source methods taking `&mut self` and returning `Result<T, Error>` are
  modelled as functions returning `Except Error T × State` (call result plus
  post-state); the source error paths perform no mutation, which the returned
  pairs reflect line by line.
* Identifiers keep the source names, transliterated to ASCII where Lean does
  not accept the letter ñ (`anadir_miembro` for `añadir_miembro`, `anio` for
  `año`).
-/

abbrev AccountId := Nat

/-- Replace the first list element satisfying `p` by its image under `f`.
This is the effect of mutating in place through `iter_mut().find(...)`, as
`Eleccion::buscar_miembro_aprobado` followed by `Miembro::votar` does. -/
def updateFirstBy (p : α → Bool) (f : α → α) : List α → List α
  | [] => []
  | x :: xs => if p x then f x :: xs else x :: updateFirstBy p f xs

/-- Remove the first list element satisfying `p`, returning it together with
the remaining list.  This is the effect of
`Eleccion::get_posicion_miembro_pendiente` (`position`, i.e. first index
satisfying the predicate) followed by `Vec::remove` at that index. -/
def removeFirstBy (p : α → Bool) : List α → Option (α × List α)
  | [] => none
  | x :: xs =>
    if p x then some (x, xs)
    else
      match removeFirstBy p xs with
      | some (y, ys) => some (y, x :: ys)
      | none => none

/-- `Fecha::es_bisiesto` -/
def es_bisiesto (anio : Nat) : Bool :=
  (anio % 4 == 0 && anio % 100 != 0) || (anio % 400 == 0)

/-- `Fecha::dias_en_mes`.  The source panics when `mes` is outside `1..=12`;
that branch is only reachable on inputs for which `Fecha::new` panics anyway
(modelled as `none` there), so out of range the function returns the junk
value `0` here. -/
def dias_en_mes (anio mes : Nat) : Nat :=
  let dias := [31, if es_bisiesto anio then 29 else 28,
               31, 30, 31, 30, 31, 31, 30, 31, 30, 31]
  if 1 ≤ mes ∧ mes ≤ 12 then dias.getD (mes - 1) 0 else 0

/-- `Fecha::dias_desde_epoch`.  For `dia = 0` the source underflows the `u64`
subtraction `dia - 1` and panics; `Nat` subtraction yields a junk value here,
and every such input makes `Fecha.new` return `none` (the source panics in
its validity check if it did not panic earlier). -/
def dias_desde_epoch (anio mes dia : Nat) : Nat :=
  (List.range' 1970 (anio - 1970)).foldl
      (fun acc a => acc + if es_bisiesto a then 366 else 365) 0
    + (List.range' 1 (mes - 1)).foldl (fun acc m => acc + dias_en_mes anio m) 0
    + (dia - 1)

/-- `fecha::Fecha`.  Fields are `u8`/`u16` in the source; `tiempo_unix : u64`
cannot overflow because `anio ≤ 65535` bounds it far below `2^64`. -/
structure Fecha where
  segundo : Nat
  minuto : Nat
  hora : Nat
  dia : Nat
  mes : Nat
  anio : Nat
  tiempo_unix : Nat
deriving DecidableEq, Repr

/-- `Fecha::es_fecha_valida` -/
def Fecha.es_fecha_valida (f : Fecha) : Bool :=
  1970 ≤ f.anio && (1 ≤ f.mes && f.mes ≤ 12)
    && (1 ≤ f.dia && f.dia ≤ dias_en_mes f.anio f.mes)
    && f.hora ≤ 23 && f.minuto ≤ 59 && f.segundo ≤ 59

/-- `Fecha::new`.  `none` models the documented panic on an invalid calendar
date (`# Panics ... si fecha no es válida`). -/
def Fecha.new (segundo minuto hora dia mes anio : Nat) : Option Fecha :=
  let dias := dias_desde_epoch anio mes dia
  let segundos := hora * 3600 + minuto * 60 + segundo
  let f : Fecha :=
    { segundo, minuto, hora, dia, mes, anio,
      tiempo_unix := (dias * 86400 + segundos) * 1000 }
  if f.es_fecha_valida then some f else none

/-- `Fecha::get_tiempo_unix` -/
def Fecha.get_tiempo_unix (f : Fecha) : Nat := f.tiempo_unix

/-- `enums::EstadoAprobacion` -/
inductive EstadoAprobacion
  | Aprobado
  | Rechazado
deriving DecidableEq, Repr

/-- `enums::EstadoDeEleccion` -/
inductive EstadoDeEleccion
  | Pendiente
  | EnCurso
  | Finalizada
deriving DecidableEq, Repr

/-- `enums::Error` -/
inductive Error
  | PermisosInsuficientes
  | UsuarioExistente
  | UsuarioNoExistente
  | UsuarioNoPermitido
  | VotanteExistente
  | CandidatoExistente
  | MiembroExistente
  | VotanteNoExistente
  | CandidatoNoExistente
  | VotacionNoExiste
  | VotacionNoIniciada
  | VotacionEnCurso
  | VotacionFinalizada
  | VotanteYaVoto
  | FechaFinalizacionInvalida
  | FechaInvalida
deriving DecidableEq, Repr

/-- `usuario::Usuario` -/
structure Usuario where
  nombre : String
  apellido : String
  dni : String
deriving DecidableEq, Repr

/-- `Usuario::new` -/
def Usuario.new (nombre apellido dni : String) : Usuario :=
  { nombre, apellido, dni }

/-- `votante::Votante` -/
structure Votante where
  id : AccountId
  ha_votado : Bool
deriving DecidableEq, Repr

/-- `Votante::new`: initialises with `ha_votado = false`. -/
def Votante.new (id : AccountId) : Votante :=
  { id, ha_votado := false }

/-- `Votante::votar` (trait `Miembro`): errs `VotanteYaVoto` if `ha_votado`,
otherwise flips the flag (`ha_votado = !ha_votado`). -/
def Votante.votar (v : Votante) : Except Error Votante :=
  if v.ha_votado then .error .VotanteYaVoto
  else .ok { v with ha_votado := !v.ha_votado }

/-- `Votante::get_votos` (trait `Miembro`) -/
def Votante.get_votos (v : Votante) : Nat :=
  if v.ha_votado then 1 else 0

/-- `candidato::Candidato`.  The checked-in `candidato.rs` additionally
carries a stale `aprobacion` field referring to an `EstadoAprobacion::Pendiente`
variant that no longer exists in `enums.rs`; no code in `eleccion.rs` or
`lib.rs` reads that field, so it is omitted.  `votos` is a `u32`. -/
structure Candidato where
  id : AccountId
  votos : Nat
deriving DecidableEq, Repr

/-- `Candidato::new`: zero votes received. -/
def Candidato.new (id : AccountId) : Candidato :=
  { id, votos := 0 }

/-- `Candidato::votar` (trait `Miembro`, `candidato.rs` lines 33-36):
increments the tally by one and always succeeds. -/
def Candidato.votar (c : Candidato) : Except Error Candidato :=
  .ok { c with votos := c.votos + 1 }

/-- `eleccion::Rol` -/
inductive Rol
  | Candidato
  | Votante
deriving DecidableEq, Repr

/-- `eleccion::Eleccion` -/
structure Eleccion where
  id : Nat
  votantes_pendientes : List Votante
  votantes_aprobados : List Votante
  candidatos_pendientes : List Candidato
  candidatos_aprobados : List Candidato
  puesto : String
  inicio : Fecha
  fin : Fecha
deriving DecidableEq, Repr

/-- `Eleccion::new`: an election with empty membership lists. -/
def Eleccion.new (id : Nat) (puesto : String) (inicio fin : Fecha) : Eleccion :=
  { id, votantes_pendientes := [], votantes_aprobados := [],
    candidatos_pendientes := [], candidatos_aprobados := [],
    puesto, inicio, fin }

/-- `Eleccion::consultar_estado`: the phase is recomputed from
`(inicio, fin, tiempo)` on every call; no phase field is stored. -/
def Eleccion.consultar_estado (e : Eleccion) (tiempo : Nat) : EstadoDeEleccion :=
  if tiempo < e.inicio.get_tiempo_unix then .Pendiente
  else if tiempo < e.fin.get_tiempo_unix then .EnCurso
  else .Finalizada

/-- `Eleccion::añadir_miembro` -/
def Eleccion.anadir_miembro (e : Eleccion) (id : AccountId) (rol : Rol)
    (tiempo : Nat) : Except Error Unit × Eleccion :=
  match e.consultar_estado tiempo with
  | .EnCurso => (.error .VotacionEnCurso, e)
  | .Finalizada => (.error .VotacionFinalizada, e)
  | .Pendiente =>
    match rol with
    | .Candidato =>
      (.ok (), { e with candidatos_pendientes :=
                    e.candidatos_pendientes ++ [Candidato.new id] })
    | .Votante =>
      (.ok (), { e with votantes_pendientes :=
                    e.votantes_pendientes ++ [Votante.new id] })

/-- `Eleccion::buscar_miembro_aprobado` restricted to `Rol::Votante`
(the source returns `&mut dyn Miembro` selected by role). -/
def Eleccion.buscar_votante_aprobado (e : Eleccion) (id : AccountId) :
    Option Votante :=
  e.votantes_aprobados.find? (fun v => v.id == id)

/-- `Eleccion::buscar_miembro_aprobado` restricted to `Rol::Candidato`. -/
def Eleccion.buscar_candidato_aprobado (e : Eleccion) (id : AccountId) :
    Option Candidato :=
  e.candidatos_aprobados.find? (fun c => c.id == id)

/-- `Eleccion::existe_usuario`: the identity occurs in one of the four
membership lists, of either role and either approval state. -/
def Eleccion.existe_usuario (e : Eleccion) (id : AccountId) : Bool :=
  e.votantes_pendientes.any (fun v => v.id == id)
    || e.votantes_aprobados.any (fun v => v.id == id)
    || e.candidatos_pendientes.any (fun c => c.id == id)
    || e.candidatos_aprobados.any (fun c => c.id == id)

/-- `Eleccion::aprobar_miembro`: moves the first pending entry with this id to
the approved list of the same role; the error paths do not mutate. -/
def Eleccion.aprobar_miembro (e : Eleccion) (id : AccountId) (rol : Rol) :
    Except Error Unit × Eleccion :=
  match rol with
  | .Candidato =>
    match removeFirstBy (fun c => c.id == id) e.candidatos_pendientes with
    | some (c, resto) =>
      (.ok (), { e with candidatos_pendientes := resto,
                        candidatos_aprobados := e.candidatos_aprobados ++ [c] })
    | none => (.error .CandidatoNoExistente, e)
  | .Votante =>
    match removeFirstBy (fun v => v.id == id) e.votantes_pendientes with
    | some (v, resto) =>
      (.ok (), { e with votantes_pendientes := resto,
                        votantes_aprobados := e.votantes_aprobados ++ [v] })
    | none => (.error .VotanteNoExistente, e)

/-- `Eleccion::rechazar_miembro`: removes the first pending entry with this id
permanently; the error paths do not mutate. -/
def Eleccion.rechazar_miembro (e : Eleccion) (id : AccountId) (rol : Rol) :
    Except Error Unit × Eleccion :=
  match rol with
  | .Candidato =>
    match removeFirstBy (fun c => c.id == id) e.candidatos_pendientes with
    | some (_, resto) => (.ok (), { e with candidatos_pendientes := resto })
    | none => (.error .CandidatoNoExistente, e)
  | .Votante =>
    match removeFirstBy (fun v => v.id == id) e.votantes_pendientes with
    | some (_, resto) => (.ok (), { e with votantes_pendientes := resto })
    | none => (.error .VotanteNoExistente, e)

/-- `Eleccion::votar` (`eleccion.rs` lines 245-274).  During `EnCurso` the
candidate is looked up first, then the voter; on success the found voter's
flag is set (via `Votante::votar`) and the found candidate's tally is
incremented (via `Candidato::votar` after the re-lookup whose `unwrap` cannot
fail because the candidate list was not modified). -/
def Eleccion.votar (e : Eleccion) (id_votante id_candidato : AccountId)
    (tiempo : Nat) : Except Error Unit × Eleccion :=
  match e.consultar_estado tiempo with
  | .Pendiente => (.error .VotacionNoIniciada, e)
  | .Finalizada => (.error .VotacionFinalizada, e)
  | .EnCurso =>
    if (e.buscar_candidato_aprobado id_candidato).isNone then
      (.error .CandidatoNoExistente, e)
    else
      match e.buscar_votante_aprobado id_votante with
      | none => (.error .VotanteNoExistente, e)
      | some v =>
        if v.ha_votado then (.error .VotanteYaVoto, e)
        else
          (.ok (), { e with
            votantes_aprobados :=
              updateFirstBy (fun w => w.id == id_votante)
                (fun w => { w with ha_votado := true }) e.votantes_aprobados,
            candidatos_aprobados :=
              updateFirstBy (fun c => c.id == id_candidato)
                (fun c => { c with votos := c.votos + 1 })
                e.candidatos_aprobados })

/-- The identities of the four membership lists of an election,
concatenated. -/
def Eleccion.ids_miembros (e : Eleccion) : List AccountId :=
  e.votantes_pendientes.map (fun v => v.id)
    ++ e.votantes_aprobados.map (fun v => v.id)
    ++ e.candidatos_pendientes.map (fun c => c.id)
    ++ e.candidatos_aprobados.map (fun c => c.id)

/-- Inductive membership invariant maintained by the contract: every identity
occurs at most once across the four membership lists of an election.  This
implies the cross-list exclusivity of the membership partition. -/
def Eleccion.membresia_exclusiva (e : Eleccion) : Prop :=
  e.ids_miembros.Nodup

/-- `sistema_votacion::SistemaVotacion` (the `#[ink(storage)]` struct). -/
structure SistemaVotacion where
  admin : AccountId
  contrato_reportes : Option AccountId
  elecciones : List Eleccion
  id_usuarios : List (String × AccountId)
  usuarios : List (AccountId × Usuario)
deriving DecidableEq, Repr

/-- `SistemaVotacion::new`: the instantiating caller becomes admin. -/
def SistemaVotacion.new (caller : AccountId) : SistemaVotacion :=
  { admin := caller, contrato_reportes := none, elecciones := [],
    id_usuarios := [], usuarios := [] }

/-- `SistemaVotacion::es_admin` -/
def SistemaVotacion.es_admin (s : SistemaVotacion) (caller : AccountId) : Bool :=
  caller == s.admin

/-- The membership invariant for every election of the system. -/
def SistemaVotacion.inv_membresia (s : SistemaVotacion) : Prop :=
  ∀ e ∈ s.elecciones, e.membresia_exclusiva

/-- `SistemaVotacion::registrar_usuario` (`lib.rs` lines 56-77). -/
def SistemaVotacion.registrar_usuario (s : SistemaVotacion) (caller : AccountId)
    (nombre apellido dni : String) : Except Error Unit × SistemaVotacion :=
  if s.es_admin caller then (.error .UsuarioNoPermitido, s)
  else if (s.usuarios.lookup caller).isSome || (s.id_usuarios.lookup dni).isSome then
    (.error .UsuarioExistente, s)
  else
    let usuario := Usuario.new nombre apellido dni
    (.ok (), { s with id_usuarios := (usuario.dni, caller) :: s.id_usuarios,
                      usuarios := (caller, usuario) :: s.usuarios })

/-- `SistemaVotacion::registrar_en_eleccion` (`lib.rs` lines 85-105).  The
`u32` index expression `id_votacion - 1` panics for `id_votacion = 0` (ink!
builds enforce overflow checks); `none` models that trap.  The election is
written back with `set` only when `añadir_miembro` succeeded. -/
def SistemaVotacion.registrar_en_eleccion (s : SistemaVotacion)
    (caller : AccountId) (id_votacion : Nat) (rol : Rol) (tiempo : Nat) :
    Option (Except Error Unit × SistemaVotacion) :=
  if (s.usuarios.lookup caller).isNone then some (.error .UsuarioNoExistente, s)
  else if id_votacion == 0 then none
  else
    match s.elecciones[id_votacion - 1]? with
    | none => some (.error .VotacionNoExiste, s)
    | some votacion =>
      if votacion.existe_usuario caller then some (.error .MiembroExistente, s)
      else
        match votacion.anadir_miembro caller rol tiempo with
        | (.ok _, v') =>
          some (.ok (), { s with elecciones := s.elecciones.set (id_votacion - 1) v' })
        | (.error e, _) => some (.error e, s)

/-- `SistemaVotacion::crear_eleccion` (`lib.rs` lines 110-145).  `none` models
the panic of `Fecha::new` on an invalid calendar date; the `start > end`
comparison returns the recoverable `FechaInvalida`. -/
def SistemaVotacion.crear_eleccion (s : SistemaVotacion) (caller : AccountId)
    (puesto : String)
    (minuto_inicio hora_inicio dia_inicio mes_inicio anio_inicio : Nat)
    (minuto_fin hora_fin dia_fin mes_fin anio_fin : Nat) :
    Option (Except Error Nat × SistemaVotacion) :=
  if !(s.es_admin caller) then some (.error .PermisosInsuficientes, s)
  else
    match Fecha.new 0 minuto_inicio hora_inicio dia_inicio mes_inicio anio_inicio with
    | none => none
    | some inicio =>
      match Fecha.new 0 minuto_fin hora_fin dia_fin mes_fin anio_fin with
      | none => none
      | some fin =>
        if inicio.get_tiempo_unix > fin.get_tiempo_unix then
          some (.error .FechaInvalida, s)
        else
          let id := s.elecciones.length + 1
          some (.ok id,
                { s with elecciones :=
                    s.elecciones ++ [Eleccion.new id puesto inicio fin] })

/-- `SistemaVotacion::delegar_admin` -/
def SistemaVotacion.delegar_admin (s : SistemaVotacion)
    (caller id_nuevo_admin : AccountId) : Except Error Unit × SistemaVotacion :=
  if !(s.es_admin caller) then (.error .PermisosInsuficientes, s)
  else (.ok (), { s with admin := id_nuevo_admin })

/-- `SistemaVotacion::cambiar_estado_aprobacion` (`lib.rs` lines 199-230).
Mirrors the source exactly: in the `Pendiente` branch the (possibly
unchanged) election is written back with `set` even when the member lookup
failed and the call returns an error. -/
def SistemaVotacion.cambiar_estado_aprobacion (s : SistemaVotacion)
    (caller : AccountId) (id_votacion : Nat) (id_miembro : AccountId)
    (rol : Rol) (estado : EstadoAprobacion) (tiempo : Nat) :
    Option (Except Error Unit × SistemaVotacion) :=
  if !(s.es_admin caller) then some (.error .PermisosInsuficientes, s)
  else if id_votacion == 0 then none
  else
    match s.elecciones[id_votacion - 1]? with
    | none => some (.error .VotacionNoExiste, s)
    | some votacion =>
      match votacion.consultar_estado tiempo with
      | .EnCurso => some (.error .VotacionEnCurso, s)
      | .Finalizada => some (.error .VotacionFinalizada, s)
      | .Pendiente =>
        let r :=
          match estado with
          | .Aprobado => votacion.aprobar_miembro id_miembro rol
          | .Rechazado => votacion.rechazar_miembro id_miembro rol
        some (r.1, { s with elecciones := s.elecciones.set (id_votacion - 1) r.2 })

/-- `SistemaVotacion::consultar_estado` (`lib.rs` lines 268-274). -/
def SistemaVotacion.consultar_estado (s : SistemaVotacion) (id_votacion : Nat)
    (tiempo : Nat) : Option (Except Error EstadoDeEleccion) :=
  if id_votacion == 0 then none
  else
    match s.elecciones[id_votacion - 1]? with
    | some eleccion => some (.ok (eleccion.consultar_estado tiempo))
    | none => some (.error .VotacionNoExiste)

/-- `SistemaVotacion::votar` (`lib.rs` lines 280-292): the `?` operator
propagates an election-level error before the `set` write-back runs. -/
def SistemaVotacion.votar (s : SistemaVotacion) (caller : AccountId)
    (id_votacion : Nat) (id_candidato : AccountId) (tiempo : Nat) :
    Option (Except Error Unit × SistemaVotacion) :=
  if id_votacion == 0 then none
  else
    match s.elecciones[id_votacion - 1]? with
    | none => some (.error .VotacionNoExiste, s)
    | some eleccion =>
      match eleccion.votar caller id_candidato tiempo with
      | (.ok _, e') =>
        some (.ok (), { s with elecciones := s.elecciones.set (id_votacion - 1) e' })
      | (.error err, _) => some (.error err, s)

/-- `SistemaVotacion::delegar_contrato_reportes` -/
def SistemaVotacion.delegar_contrato_reportes (s : SistemaVotacion)
    (caller account_id : AccountId) : Except Error Unit × SistemaVotacion :=
  if !(s.es_admin caller) then (.error .PermisosInsuficientes, s)
  else (.ok (), { s with contrato_reportes := some account_id })

/-! ### Helper lemmas about the list operations -/

theorem find?_updateFirstBy_self (p : α → Bool) (f : α → α)
    (hf : ∀ a, p a = true → p (f a) = true) (l : List α) :
    (updateFirstBy p f l).find? p = (l.find? p).map f := by
  induction l with
  | nil => rfl
  | cons x xs ih =>
    by_cases hx : p x = true
    · simp [updateFirstBy, hx, List.find?_cons_of_pos, hf x hx]
    · simp only [updateFirstBy, if_neg hx]
      rw [List.find?_cons_of_neg _ hx, List.find?_cons_of_neg _ hx, ih]

theorem map_updateFirstBy (p : α → Bool) (f : α → α) (g : α → β)
    (hg : ∀ a, g (f a) = g a) (l : List α) :
    (updateFirstBy p f l).map g = l.map g := by
  induction l with
  | nil => rfl
  | cons x xs ih =>
    by_cases hx : p x = true
    · simp [updateFirstBy, hx, hg x]
    · simp [updateFirstBy, hx, ih]

theorem removeFirstBy_perm (p : α → Bool) :
    ∀ {l l' : List α} {x : α}, removeFirstBy p l = some (x, l') →
      List.Perm l (x :: l') := by
  intro l
  induction l with
  | nil => intro l' x h; simp [removeFirstBy] at h
  | cons a xs ih =>
    intro l' x h
    by_cases ha : p a = true
    · simp [removeFirstBy, ha] at h
      obtain ⟨rfl, rfl⟩ := h
      exact List.Perm.refl _
    · simp only [removeFirstBy, if_neg ha] at h
      cases hrec : removeFirstBy p xs with
      | none => rw [hrec] at h; simp at h
      | some pr =>
        obtain ⟨y, ys⟩ := pr
        rw [hrec] at h
        simp at h
        obtain ⟨rfl, rfl⟩ := h
        exact (List.Perm.cons a (ih hrec)).trans (List.Perm.swap _ _ _)

theorem removeFirstBy_sublist (p : α → Bool) :
    ∀ {l l' : List α} {x : α}, removeFirstBy p l = some (x, l') →
      List.Sublist l' l := by
  intro l
  induction l with
  | nil => intro l' x h; simp [removeFirstBy] at h
  | cons a xs ih =>
    intro l' x h
    by_cases ha : p a = true
    · simp [removeFirstBy, ha] at h
      obtain ⟨rfl, rfl⟩ := h
      exact List.sublist_cons_self a xs
    · simp only [removeFirstBy, if_neg ha] at h
      cases hrec : removeFirstBy p xs with
      | none => rw [hrec] at h; simp at h
      | some pr =>
        obtain ⟨y, ys⟩ := pr
        rw [hrec] at h
        simp at h
        obtain ⟨rfl, rfl⟩ := h
        exact List.Sublist.cons₂ a (ih hrec)

theorem set_of_getElem?_eq :
    ∀ {l : List α} {i : Nat} {a : α}, l[i]? = some a → l.set i a = l := by
  intro l
  induction l with
  | nil => intro i a h; simp at h
  | cons x xs ih =>
    intro i a h
    cases i with
    | zero => simp_all
    | succ n => simp_all [ih]

/-! ### Claim theorems -/

/-- C2: the phase of an election is a pure function of the instant pair and
the query time: it agrees between any two elections with the same
`(inicio, fin)` instants, and (for `inicio ≤ fin`, the invariant checked at
creation) it is `Pendiente` iff `t < inicio`, `EnCurso` iff
`inicio ≤ t < fin`, and `Finalizada` iff `t ≥ fin`.  No phase is stored:
`consultar_estado` recomputes it on every call. -/
theorem c2_phase_pure_characterization (e1 e2 : Eleccion) (t : Nat)
    (hI : e1.inicio.get_tiempo_unix = e2.inicio.get_tiempo_unix)
    (hF : e1.fin.get_tiempo_unix = e2.fin.get_tiempo_unix)
    (hord : e1.inicio.get_tiempo_unix ≤ e1.fin.get_tiempo_unix) :
    e1.consultar_estado t = e2.consultar_estado t
    ∧ (e1.consultar_estado t = .Pendiente ↔ t < e1.inicio.get_tiempo_unix)
    ∧ (e1.consultar_estado t = .EnCurso ↔
        e1.inicio.get_tiempo_unix ≤ t ∧ t < e1.fin.get_tiempo_unix)
    ∧ (e1.consultar_estado t = .Finalizada ↔ e1.fin.get_tiempo_unix ≤ t) := by
  unfold Eleccion.consultar_estado
  rw [hI, hF] at *
  refine ⟨rfl, ?_, ?_, ?_⟩ <;> split_ifs <;> simp_all <;> omega

/-- C2 witness: two elections sharing instants `(100, 200)` agree at `t = 150`
and the characterization holds there. -/
theorem c2_witness :
    let f1 : Fecha := ⟨0, 0, 0, 1, 1, 1970, 100⟩
    let f2 : Fecha := ⟨0, 0, 0, 2, 1, 1970, 200⟩
    let e1 : Eleccion := Eleccion.new 1 "a" f1 f2
    let e2 : Eleccion := Eleccion.new 2 "b" f1 f2
    e1.consultar_estado 150 = e2.consultar_estado 150
    ∧ (e1.consultar_estado 150 = .Pendiente ↔ (150 : Nat) < 100)
    ∧ (e1.consultar_estado 150 = .EnCurso ↔ (100 : Nat) ≤ 150 ∧ (150 : Nat) < 200)
    ∧ (e1.consultar_estado 150 = .Finalizada ↔ (200 : Nat) ≤ 150) :=
  c2_phase_pure_characterization _ _ 150 (by decide) (by decide) (by decide)

/-- C8: while an election is in progress, `Eleccion::votar` checks the
candidate before the voter: an absent approved candidate yields
`CandidatoNoExistente` regardless of the caller, and `VotanteNoExistente` is
returned only when the candidate was found and the caller is absent from the
approved voters. -/
theorem c8_candidate_checked_before_voter (e : Eleccion) (vid cid : AccountId)
    (t : Nat) (hEst : e.consultar_estado t = .EnCurso) :
    (e.buscar_candidato_aprobado cid = none →
      e.votar vid cid t = (.error .CandidatoNoExistente, e))
    ∧ ((e.votar vid cid t).1 = .error .VotanteNoExistente →
        (e.buscar_candidato_aprobado cid).isSome = true
        ∧ e.buscar_votante_aprobado vid = none) := by
  constructor
  · intro hc
    simp [Eleccion.votar, hEst, hc]
  · intro hr
    simp only [Eleccion.votar, hEst] at hr
    by_cases hc : (e.buscar_candidato_aprobado cid).isNone
    · simp [hc] at hr
    · refine ⟨by simpa [Option.isSome_iff_ne_none, Option.isNone_iff_eq_none] using hc, ?_⟩
      simp only [hc, Bool.false_eq_true, if_false] at hr
      cases hv : e.buscar_votante_aprobado vid with
      | none => rfl
      | some v =>
        rw [hv] at hr
        by_cases hvv : v.ha_votado <;> simp [hvv] at hr

/-- C8 witness: with candidate 7 absent and voter 5 also absent, the call
during `EnCurso` fails `CandidatoNoExistente`. -/
theorem c8_witness :
    let e : Eleccion := Eleccion.new 1 "p" ⟨0, 0, 0, 1, 1, 1970, 100⟩ ⟨0, 0, 0, 2, 1, 1970, 200⟩
    e.votar 5 7 150 = (.error .CandidatoNoExistente, e) :=
  (c8_candidate_checked_before_voter _ 5 7 150 (by decide)).1 (by decide)

/-- C9 counterexample: `crear_eleccion` called by the admin with the
impossible calendar date 30 February 1970 returns no `Result` at all:
`Fecha::new` panics (the model's `none`), contradicting the claim that every
public operation returns a `Result` distinguishing a specific error kind
rather than aborting. -/
theorem c9_counterexample :
    (SistemaVotacion.new 100).crear_eleccion 100 "Presidente"
      0 0 30 2 1970 0 0 1 3 1970 = none := by rfl

/-- C9 amended: the errors of the taxonomy other than the invalid-calendar
case are surfaced as recoverable `Result` values, but a calendar field out of
range is not: `Fecha::new` panics, so `crear_eleccion` invoked by the admin
traps (returns no `Result`) whenever either date is impossible. -/
theorem c9_invalid_calendar_panics (s : SistemaVotacion) (caller : AccountId)
    (puesto : String) (mi hi di mesi ai minf horf dif mesf anf : Nat)
    (hadmin : s.es_admin caller = true)
    (hbad : Fecha.new 0 mi hi di mesi ai = none
            ∨ Fecha.new 0 minf horf dif mesf anf = none) :
    s.crear_eleccion caller puesto mi hi di mesi ai minf horf dif mesf anf
      = none := by
  simp only [SistemaVotacion.crear_eleccion, hadmin, Bool.not_true,
    Bool.false_eq_true, if_false]
  rcases hbad with hbad | hbad
  · simp [hbad]
  · cases h1 : Fecha.new 0 mi hi di mesi ai <;> simp [hbad]

/-- C9 witness: minute 99 is out of range, so the admin's call traps. -/
theorem c9_witness :
    (SistemaVotacion.new 100).crear_eleccion 100 "Presidente"
      99 0 1 1 1970 0 0 1 3 1970 = none :=
  c9_invalid_calendar_panics _ 100 "Presidente" 99 0 1 1 1970 0 0 1 3 1970
    (by decide) (Or.inl (by decide))

/-- C10: the election-id-addressed entry points compute the `u32` index
`id_votacion - 1`.  For `id = 0` the subtraction underflows and the call
traps (`none`; ink! enforces overflow checks), while for every `id ≥ 1` that
designates no existing election they return the recoverable
`VotacionNoExiste`. -/
theorem c10_id_zero_traps_id_ge_one_not_found (s : SistemaVotacion)
    (caller cand : AccountId) (rol : Rol) (t : Nat) (idv : Nat) :
    (s.consultar_estado 0 t = none
      ∧ s.votar caller 0 cand t = none
      ∧ ((s.usuarios.lookup caller).isSome = true →
          s.registrar_en_eleccion caller 0 rol t = none))
    ∧ (1 ≤ idv → s.elecciones.length < idv →
        s.consultar_estado idv t = some (.error .VotacionNoExiste)
        ∧ s.votar caller idv cand t = some (.error .VotacionNoExiste, s)
        ∧ ((s.usuarios.lookup caller).isSome = true →
            s.registrar_en_eleccion caller idv rol t
              = some (.error .VotacionNoExiste, s))) := by
  constructor
  · refine ⟨by simp [SistemaVotacion.consultar_estado],
            by simp [SistemaVotacion.votar], fun hreg => ?_⟩
    simp [SistemaVotacion.registrar_en_eleccion,
      Option.isNone_iff_eq_none, Option.isSome_iff_ne_none.mp hreg]
  · intro h1 hlen
    have hidx : s.elecciones[idv - 1]? = none := by
      rw [List.getElem?_eq_none]
      omega
    have hne : (idv == 0) = false := by simp; omega
    refine ⟨?_, ?_, fun hreg => ?_⟩
    · simp [SistemaVotacion.consultar_estado, hne, hidx]
    · simp [SistemaVotacion.votar, hne, hidx]
    · simp [SistemaVotacion.registrar_en_eleccion, hne, hidx,
        Option.isNone_iff_eq_none, Option.isSome_iff_ne_none.mp hreg]

/-- C10 witness: on a system with a registered user 1 and no elections,
election id 0 traps all three entry points and id 3 yields
`VotacionNoExiste`. -/
theorem c10_witness :
    let s : SistemaVotacion :=
      { admin := 100, contrato_reportes := none, elecciones := [],
        id_usuarios := [("11", 1)], usuarios := [(1, Usuario.new "A" "B" "11")] }
    (s.consultar_estado 0 0 = none
      ∧ s.votar 1 0 2 0 = none
      ∧ ((s.usuarios.lookup 1).isSome = true → s.registrar_en_eleccion 1 0 .Votante 0 = none))
    ∧ (1 ≤ 3 → s.elecciones.length < 3 →
        s.consultar_estado 3 0 = some (.error .VotacionNoExiste)
        ∧ s.votar 1 3 2 0 = some (.error .VotacionNoExiste, s)
        ∧ ((s.usuarios.lookup 1).isSome = true →
            s.registrar_en_eleccion 1 3 .Votante 0 = some (.error .VotacionNoExiste, s))) :=
  c10_id_zero_traps_id_ge_one_not_found _ 1 2 .Votante 0 3

/-- C5: `crear_eleccion` called by the admin with well-formed dates fails
`FechaInvalida` when `start > end` and leaves the whole state (in particular
the election list and its length) unchanged; otherwise it assigns the id
`len(elecciones) + 1` and appends the new election, so ids are 1-based and
follow creation order. -/
theorem c5_crear_eleccion_spec (s : SistemaVotacion) (caller : AccountId)
    (puesto : String) (mi hi di mesi ai minf horf dif mesf anf : Nat)
    (inicio fin : Fecha)
    (hadmin : s.es_admin caller = true)
    (hI : Fecha.new 0 mi hi di mesi ai = some inicio)
    (hF : Fecha.new 0 minf horf dif mesf anf = some fin) :
    (fin.get_tiempo_unix < inicio.get_tiempo_unix →
      s.crear_eleccion caller puesto mi hi di mesi ai minf horf dif mesf anf
        = some (.error .FechaInvalida, s))
    ∧ (inicio.get_tiempo_unix ≤ fin.get_tiempo_unix →
      s.crear_eleccion caller puesto mi hi di mesi ai minf horf dif mesf anf
        = some (.ok (s.elecciones.length + 1),
            { s with elecciones := s.elecciones
                ++ [Eleccion.new (s.elecciones.length + 1) puesto inicio fin] })) := by
  constructor
  · intro hlt
    simp [SistemaVotacion.crear_eleccion, hadmin, hI, hF, hlt]
  · intro hle
    simp [SistemaVotacion.crear_eleccion, hadmin, hI, hF, Nat.not_lt.mpr hle]

/-- C5 witness: on a fresh system the admin creating an election with
`start = end = 1970-01-02 00:00` succeeds with id 1, and swapping the dates
to `start = 1970-01-03 > end = 1970-01-02` fails `FechaInvalida` leaving the
state unchanged. -/
theorem c5_witness :
    let s : SistemaVotacion := SistemaVotacion.new 100
    let f2 : Fecha := ⟨0, 0, 0, 2, 1, 1970, 86400000⟩
    let f3 : Fecha := ⟨0, 0, 0, 3, 1, 1970, 172800000⟩
    (s.crear_eleccion 100 "Presidente" 0 0 3 1 1970 0 0 2 1 1970
        = some (.error .FechaInvalida, s))
    ∧ (s.crear_eleccion 100 "Presidente" 0 0 2 1 1970 0 0 3 1 1970
        = some (.ok 1, { s with elecciones := [Eleccion.new 1 "Presidente" f2 f3] })) :=
  ⟨(c5_crear_eleccion_spec (SistemaVotacion.new 100) 100 "Presidente"
      0 0 3 1 1970 0 0 2 1 1970 ⟨0, 0, 0, 3, 1, 1970, 172800000⟩
      ⟨0, 0, 0, 2, 1, 1970, 86400000⟩ (by decide) (by decide) (by decide)).1
    (by decide),
   (c5_crear_eleccion_spec (SistemaVotacion.new 100) 100 "Presidente"
      0 0 2 1 1970 0 0 3 1 1970 ⟨0, 0, 0, 2, 1, 1970, 86400000⟩
      ⟨0, 0, 0, 3, 1, 1970, 172800000⟩ (by decide) (by decide) (by decide)).2
    (by decide)⟩

/-- C6: `registrar_usuario` fails `UsuarioNoPermitido` when the caller is the
current admin, fails `UsuarioExistente` when the caller already has a profile
or the dni is already indexed (in both failure cases neither map changes),
and otherwise prepends the profile to both the identity map and the dni
index together. -/
theorem c6_registrar_usuario_spec (s : SistemaVotacion) (caller : AccountId)
    (nombre apellido dni : String) :
    (caller = s.admin →
      s.registrar_usuario caller nombre apellido dni
        = (.error .UsuarioNoPermitido, s))
    ∧ (caller ≠ s.admin →
        ((s.usuarios.lookup caller).isSome = true
          ∨ (s.id_usuarios.lookup dni).isSome = true) →
        s.registrar_usuario caller nombre apellido dni
          = (.error .UsuarioExistente, s))
    ∧ (caller ≠ s.admin → s.usuarios.lookup caller = none →
        s.id_usuarios.lookup dni = none →
        s.registrar_usuario caller nombre apellido dni
          = (.ok (), { s with
              id_usuarios := (dni, caller) :: s.id_usuarios,
              usuarios := (caller, Usuario.new nombre apellido dni) :: s.usuarios })) := by
  refine ⟨fun hadm => ?_, fun hadm hex => ?_, fun hadm h1 h2 => ?_⟩
  · simp [SistemaVotacion.registrar_usuario, SistemaVotacion.es_admin, hadm]
  · rcases hex with hex | hex <;>
      simp [SistemaVotacion.registrar_usuario, SistemaVotacion.es_admin, hadm, hex]
  · simp [SistemaVotacion.registrar_usuario, SistemaVotacion.es_admin, hadm,
      h1, h2, Usuario.new]

/-- C6 witness: on a system whose admin is 100 with user 1 (dni "11")
registered, the admin cannot self-register, caller 2 reusing dni "11" fails
`UsuarioExistente`, and caller 2 with fresh dni "22" is inserted into both
maps. -/
theorem c6_witness :
    let u1 : Usuario := Usuario.new "A" "B" "11"
    let s : SistemaVotacion :=
      { admin := 100, contrato_reportes := none, elecciones := [],
        id_usuarios := [("11", 1)], usuarios := [(1, u1)] }
    (s.registrar_usuario 100 "X" "Y" "33" = (.error .UsuarioNoPermitido, s))
    ∧ (s.registrar_usuario 2 "X" "Y" "11" = (.error .UsuarioExistente, s))
    ∧ (s.registrar_usuario 2 "X" "Y" "22"
        = (.ok (), { s with
            id_usuarios := ("22", 2) :: s.id_usuarios,
            usuarios := (2, Usuario.new "X" "Y" "22") :: s.usuarios })) :=
  ⟨(c6_registrar_usuario_spec _ 100 "X" "Y" "33").1 (by decide),
   (c6_registrar_usuario_spec _ 2 "X" "Y" "11").2.1 (by decide)
     (Or.inr (by rfl)),
   (c6_registrar_usuario_spec _ 2 "X" "Y" "22").2.2 (by decide) (by decide) (by decide)⟩

/-- C3: the admission window.  `añadir_miembro` (join) is rejected with
`VotacionEnCurso` once the election started and `VotacionFinalizada` once it
ended, so it succeeds only while `Pendiente`; `cambiar_estado_aprobacion`
(approve/reject) succeeds only when the addressed election is `Pendiente` at
call time; `Eleccion::votar` succeeds only while `EnCurso`. -/
theorem c3_admission_window :
    (∀ (e : Eleccion) (a : AccountId) (rol : Rol) (t : Nat),
        (e.consultar_estado t = .EnCurso →
          e.anadir_miembro a rol t = (.error .VotacionEnCurso, e))
        ∧ (e.consultar_estado t = .Finalizada →
          e.anadir_miembro a rol t = (.error .VotacionFinalizada, e))
        ∧ ((e.anadir_miembro a rol t).1 = .ok () →
            e.consultar_estado t = .Pendiente))
    ∧ (∀ (s : SistemaVotacion) (caller : AccountId) (idv : Nat)
        (m : AccountId) (rol : Rol) (estado : EstadoAprobacion) (t : Nat)
        (s' : SistemaVotacion),
        s.cambiar_estado_aprobacion caller idv m rol estado t
          = some (.ok (), s') →
        ∃ votacion, s.elecciones[idv - 1]? = some votacion
          ∧ votacion.consultar_estado t = .Pendiente)
    ∧ (∀ (e : Eleccion) (v c : AccountId) (t : Nat),
        (e.votar v c t).1 = .ok () → e.consultar_estado t = .EnCurso) := by
  refine ⟨fun e a rol t => ⟨fun h => ?_, fun h => ?_, fun h => ?_⟩,
          fun s caller idv m rol estado t s' h => ?_,
          fun e v c t h => ?_⟩
  · simp [Eleccion.anadir_miembro, h]
  · simp [Eleccion.anadir_miembro, h]
  · cases hEst : e.consultar_estado t with
    | Pendiente => rfl
    | EnCurso => simp [Eleccion.anadir_miembro, hEst] at h
    | Finalizada => simp [Eleccion.anadir_miembro, hEst] at h
  · simp only [SistemaVotacion.cambiar_estado_aprobacion] at h
    by_cases hadm : s.es_admin caller = true
    · simp only [hadm, Bool.not_true, Bool.false_eq_true, if_false] at h
      by_cases hz : (idv == 0) = true
      · simp [hz] at h
      · simp only [Bool.not_eq_true] at hz
        simp only [hz, Bool.false_eq_true, if_false] at h
        cases hget : s.elecciones[idv - 1]? with
        | none => rw [hget] at h; simp at h
        | some votacion =>
          rw [hget] at h
          refine ⟨votacion, rfl, ?_⟩
          cases hEst : votacion.consultar_estado t with
          | Pendiente => rfl
          | EnCurso => simp [hEst] at h
          | Finalizada => simp [hEst] at h
    · simp only [Bool.not_eq_true] at hadm
      simp [hadm] at h
  · cases hEst : e.consultar_estado t with
    | EnCurso => rfl
    | Pendiente => simp [Eleccion.votar, hEst] at h
    | Finalizada => simp [Eleccion.votar, hEst] at h

/-- C3 witness: with instants `(100, 200)`, joining at `t = 150` fails
`VotacionEnCurso` and at `t = 250` fails `VotacionFinalizada`; approving
pending voter 5 at `t = 50` succeeds and the addressed election is indeed
`Pendiente`; a successful vote at `t = 150` certifies phase `EnCurso`. -/
theorem c3_witness :
    let fI : Fecha := ⟨0, 0, 0, 1, 1, 1970, 100⟩
    let fF : Fecha := ⟨0, 0, 0, 2, 1, 1970, 200⟩
    let e : Eleccion := Eleccion.new 1 "p" fI fF
    let eP : Eleccion :=
      { id := 1, votantes_pendientes := [⟨5, false⟩], votantes_aprobados := [],
        candidatos_pendientes := [], candidatos_aprobados := [],
        puesto := "p", inicio := fI, fin := fF }
    let s : SistemaVotacion :=
      { admin := 100, contrato_reportes := none, elecciones := [eP],
        id_usuarios := [], usuarios := [] }
    let eV : Eleccion :=
      { eP with votantes_pendientes := [], votantes_aprobados := [⟨5, false⟩],
                candidatos_aprobados := [⟨7, 0⟩] }
    (e.anadir_miembro 5 .Votante 150 = (.error .VotacionEnCurso, e))
    ∧ (e.anadir_miembro 5 .Votante 250 = (.error .VotacionFinalizada, e))
    ∧ (∃ votacion, s.elecciones[(1 : Nat) - 1]? = some votacion
        ∧ votacion.consultar_estado 50 = .Pendiente)
    ∧ eV.consultar_estado 150 = .EnCurso :=
  ⟨(c3_admission_window.1 _ 5 .Votante 150).1 (by decide),
   (c3_admission_window.1 _ 5 .Votante 250).2.1 (by decide),
   c3_admission_window.2.1 _ 100 1 5 .Votante .Aprobado 50
     { admin := 100, contrato_reportes := none,
       elecciones := [{ id := 1, votantes_pendientes := [],
                        votantes_aprobados := [⟨5, false⟩],
                        candidatos_pendientes := [], candidatos_aprobados := [],
                        puesto := "p", inicio := ⟨0, 0, 0, 1, 1, 1970, 100⟩,
                        fin := ⟨0, 0, 0, 2, 1, 1970, 200⟩ }],
       id_usuarios := [], usuarios := [] } (by rfl),
   c3_admission_window.2.2 _ 5 7 150 (by rfl)⟩

/-- C1: during `EnCurso`, an approved voter `v` with `ha_votado = false`
voting an approved candidate `c` succeeds exactly once: the call returns ok,
`c`'s tally grows by exactly one, `v`'s flag becomes true, and any later call
by the same voter while the election is still in progress — naming any
approved candidate — fails `VotanteYaVoto` and returns the election state
unchanged (every tally and every flag intact). -/
theorem c1_cast_vote_once_then_rejected
    (e : Eleccion) (vid cid : AccountId) (v : Votante) (c : Candidato) (t : Nat)
    (hEst : e.consultar_estado t = .EnCurso)
    (hv : e.buscar_votante_aprobado vid = some v)
    (hnv : v.ha_votado = false)
    (hc : e.buscar_candidato_aprobado cid = some c) :
    ∃ e', e.votar vid cid t = (.ok (), e')
      ∧ e'.buscar_votante_aprobado vid = some { v with ha_votado := true }
      ∧ e'.buscar_candidato_aprobado cid = some { c with votos := c.votos + 1 }
      ∧ ∀ (cid' : AccountId) (c' : Candidato) (t' : Nat),
          e'.consultar_estado t' = .EnCurso →
          e'.buscar_candidato_aprobado cid' = some c' →
          e'.votar vid cid' t' = (.error .VotanteYaVoto, e') := by
  refine ⟨{ e with
      votantes_aprobados := updateFirstBy (fun w => w.id == vid)
        (fun w => { w with ha_votado := true }) e.votantes_aprobados,
      candidatos_aprobados := updateFirstBy (fun c0 => c0.id == cid)
        (fun c0 => { c0 with votos := c0.votos + 1 }) e.candidatos_aprobados },
    ?_, ?_, ?_, ?_⟩
  · simp [Eleccion.votar, hEst, hc, hv, hnv]
  · simp only [Eleccion.buscar_votante_aprobado] at hv ⊢
    rw [find?_updateFirstBy_self (fun (w : Votante) => w.id == vid)
      (fun w => { w with ha_votado := true }) (fun a h => h), hv]
    rfl
  · simp only [Eleccion.buscar_candidato_aprobado] at hc ⊢
    rw [find?_updateFirstBy_self (fun (c0 : Candidato) => c0.id == cid)
      (fun c0 => { c0 with votos := c0.votos + 1 }) (fun a h => h), hc]
    rfl
  · intro cid' c' t' hEst' hc'
    have hv' : Eleccion.buscar_votante_aprobado
        { e with
          votantes_aprobados := updateFirstBy (fun w => w.id == vid)
            (fun w => { w with ha_votado := true }) e.votantes_aprobados,
          candidatos_aprobados := updateFirstBy (fun c0 => c0.id == cid)
            (fun c0 => { c0 with votos := c0.votos + 1 }) e.candidatos_aprobados }
        vid = some { v with ha_votado := true } := by
      simp only [Eleccion.buscar_votante_aprobado] at hv ⊢
      rw [find?_updateFirstBy_self (fun (w : Votante) => w.id == vid)
        (fun w => { w with ha_votado := true }) (fun a h => h), hv]
      rfl
    simp [Eleccion.votar, hEst', hc', hv']

/-- C1 witness: in an election in progress with approved voter 5 (not yet
voted) and approved candidate 7 with zero votes, voting once succeeds,
leaves candidate 7 with exactly one vote and voter 5 flagged, and any
repeat attempt fails `VotanteYaVoto`. -/
theorem c1_witness :
    let e : Eleccion :=
      { id := 1, votantes_pendientes := [], votantes_aprobados := [⟨5, false⟩],
        candidatos_pendientes := [], candidatos_aprobados := [⟨7, 0⟩],
        puesto := "p", inicio := ⟨0, 0, 0, 1, 1, 1970, 100⟩,
        fin := ⟨0, 0, 0, 2, 1, 1970, 200⟩ }
    ∃ e', e.votar 5 7 150 = (.ok (), e')
      ∧ e'.buscar_votante_aprobado 5 = some ⟨5, true⟩
      ∧ e'.buscar_candidato_aprobado 7 = some ⟨7, 1⟩
      ∧ ∀ (cid' : AccountId) (c' : Candidato) (t' : Nat),
          e'.consultar_estado t' = .EnCurso →
          e'.buscar_candidato_aprobado cid' = some c' →
          e'.votar 5 cid' t' = (.error .VotanteYaVoto, e') :=
  c1_cast_vote_once_then_rejected _ 5 7 ⟨5, false⟩ ⟨7, 0⟩ 150
    (by decide) (by rfl) (by rfl) (by rfl)


/-- On a failed approval the source `aprobar_miembro` has not touched the
election, so the returned state is the input election. -/
theorem aprobar_miembro_error_snd (e : Eleccion) (a : AccountId) (rol : Rol)
    (err : Error) (h : (e.aprobar_miembro a rol).1 = .error err) :
    (e.aprobar_miembro a rol).2 = e := by
  cases rol with
  | Candidato =>
    simp only [Eleccion.aprobar_miembro] at h ⊢
    cases hrem : removeFirstBy (fun c => c.id == a) e.candidatos_pendientes with
    | none => rfl
    | some pr => obtain ⟨x, l⟩ := pr; simp [hrem] at h
  | Votante =>
    simp only [Eleccion.aprobar_miembro] at h ⊢
    cases hrem : removeFirstBy (fun v => v.id == a) e.votantes_pendientes with
    | none => rfl
    | some pr => obtain ⟨x, l⟩ := pr; simp [hrem] at h

/-- On a failed rejection the source `rechazar_miembro` has not touched the
election, so the returned state is the input election. -/
theorem rechazar_miembro_error_snd (e : Eleccion) (a : AccountId) (rol : Rol)
    (err : Error) (h : (e.rechazar_miembro a rol).1 = .error err) :
    (e.rechazar_miembro a rol).2 = e := by
  cases rol with
  | Candidato =>
    simp only [Eleccion.rechazar_miembro] at h ⊢
    cases hrem : removeFirstBy (fun c => c.id == a) e.candidatos_pendientes with
    | none => rfl
    | some pr => obtain ⟨x, l⟩ := pr; simp [hrem] at h
  | Votante =>
    simp only [Eleccion.rechazar_miembro] at h ⊢
    cases hrem : removeFirstBy (fun v => v.id == a) e.votantes_pendientes with
    | none => rfl
    | some pr => obtain ⟨x, l⟩ := pr; simp [hrem] at h

/-- C7: every public mutating operation is all-or-nothing: whenever a call
returns an error, the returned post-state equals the pre-state, including
the multi-collection operations `cambiar_estado_aprobacion` (whose source
writes the fetched election back with `set` even on failure — the write-back
stores the unmodified value) and `votar` with its paired flag/tally update. -/
theorem c7_error_leaves_state_unchanged :
    (∀ (s : SistemaVotacion) (caller : AccountId) (nombre apellido dni : String)
        (err : Error) (s' : SistemaVotacion),
        s.registrar_usuario caller nombre apellido dni = (.error err, s') → s' = s)
    ∧ (∀ (s : SistemaVotacion) (caller : AccountId) (idv : Nat) (rol : Rol)
        (t : Nat) (err : Error) (s' : SistemaVotacion),
        s.registrar_en_eleccion caller idv rol t = some (.error err, s') → s' = s)
    ∧ (∀ (s : SistemaVotacion) (caller : AccountId) (puesto : String)
        (mi hi di mesi ai minf horf dif mesf anf : Nat) (err : Error)
        (s' : SistemaVotacion),
        s.crear_eleccion caller puesto mi hi di mesi ai minf horf dif mesf anf
          = some (.error err, s') → s' = s)
    ∧ (∀ (s : SistemaVotacion) (caller : AccountId) (idv : Nat) (m : AccountId)
        (rol : Rol) (estado : EstadoAprobacion) (t : Nat) (err : Error)
        (s' : SistemaVotacion),
        s.cambiar_estado_aprobacion caller idv m rol estado t
          = some (.error err, s') → s' = s)
    ∧ (∀ (s : SistemaVotacion) (caller : AccountId) (idv : Nat)
        (cand : AccountId) (t : Nat) (err : Error) (s' : SistemaVotacion),
        s.votar caller idv cand t = some (.error err, s') → s' = s)
    ∧ (∀ (s : SistemaVotacion) (caller na : AccountId) (err : Error)
        (s' : SistemaVotacion),
        s.delegar_admin caller na = (.error err, s') → s' = s)
    ∧ (∀ (s : SistemaVotacion) (caller ca : AccountId) (err : Error)
        (s' : SistemaVotacion),
        s.delegar_contrato_reportes caller ca = (.error err, s') → s' = s) := by
  refine ⟨?_, ?_, ?_, ?_, ?_, ?_, ?_⟩
  · intro s caller nombre apellido dni err s' h
    simp only [SistemaVotacion.registrar_usuario] at h
    split at h
    · simp only [Prod.mk.injEq] at h; exact h.2.symm
    · split at h
      · simp only [Prod.mk.injEq] at h; exact h.2.symm
      · simp at h
  · intro s caller idv rol t err s' h
    simp only [SistemaVotacion.registrar_en_eleccion] at h
    split at h
    · simp only [Option.some.injEq, Prod.mk.injEq] at h; exact h.2.symm
    · split at h
      · simp at h
      · split at h
        · simp only [Option.some.injEq, Prod.mk.injEq] at h; exact h.2.symm
        · split at h
          · simp only [Option.some.injEq, Prod.mk.injEq] at h; exact h.2.symm
          · split at h
            · simp at h
            · simp only [Option.some.injEq, Prod.mk.injEq] at h; exact h.2.symm
  · intro s caller puesto mi hi di mesi ai minf horf dif mesf anf err s' h
    simp only [SistemaVotacion.crear_eleccion] at h
    split at h
    · simp only [Option.some.injEq, Prod.mk.injEq] at h; exact h.2.symm
    · split at h
      · simp at h
      · split at h
        · simp at h
        · split at h
          · simp only [Option.some.injEq, Prod.mk.injEq] at h; exact h.2.symm
          · simp at h
  · intro s caller idv m rol estado t err s' h
    simp only [SistemaVotacion.cambiar_estado_aprobacion] at h
    split at h
    · simp only [Option.some.injEq, Prod.mk.injEq] at h; exact h.2.symm
    · split at h
      · simp at h
      · split at h
        · simp only [Option.some.injEq, Prod.mk.injEq] at h; exact h.2.symm
        · rename_i votacion hget
          split at h
          · simp only [Option.some.injEq, Prod.mk.injEq] at h; exact h.2.symm
          · simp only [Option.some.injEq, Prod.mk.injEq] at h; exact h.2.symm
          · simp only [Option.some.injEq, Prod.mk.injEq] at h
            obtain ⟨hres, hstate⟩ := h
            have hsnd : (match estado with
                | EstadoAprobacion.Aprobado => votacion.aprobar_miembro m rol
                | EstadoAprobacion.Rechazado => votacion.rechazar_miembro m rol).2
                = votacion := by
              cases estado with
              | Aprobado => exact aprobar_miembro_error_snd _ _ _ err hres
              | Rechazado => exact rechazar_miembro_error_snd _ _ _ err hres
            rw [hsnd, set_of_getElem?_eq hget] at hstate
            exact hstate.symm
  · intro s caller idv cand t err s' h
    simp only [SistemaVotacion.votar] at h
    split at h
    · simp at h
    · split at h
      · simp only [Option.some.injEq, Prod.mk.injEq] at h; exact h.2.symm
      · split at h
        · simp at h
        · simp only [Option.some.injEq, Prod.mk.injEq] at h; exact h.2.symm
  · intro s caller na err s' h
    simp only [SistemaVotacion.delegar_admin] at h
    split at h
    · simp only [Prod.mk.injEq] at h; exact h.2.symm
    · simp at h
  · intro s caller ca err s' h
    simp only [SistemaVotacion.delegar_contrato_reportes] at h
    split at h
    · simp only [Prod.mk.injEq] at h; exact h.2.symm
    · simp at h

/-- C7 witness: the admin trying to register as a user fails and the fresh
state is untouched; approving voter 5, absent from a pending election, fails
and the write-back stores the unchanged election, so the state is exactly
the original. -/
theorem c7_witness :
    let s : SistemaVotacion := SistemaVotacion.new 100
    let eP : Eleccion := Eleccion.new 1 "p" ⟨0, 0, 0, 1, 1, 1970, 100⟩
      ⟨0, 0, 0, 2, 1, 1970, 200⟩
    let s1 : SistemaVotacion := { s with elecciones := [eP] }
    ((s.registrar_usuario 100 "A" "B" "1").2 = s)
    ∧ ({ s1 with elecciones := [eP].set 0 eP } = s1) :=
  ⟨c7_error_leaves_state_unchanged.1 (SistemaVotacion.new 100) 100 "A" "B" "1"
      .UsuarioNoPermitido _ (by rfl),
   c7_error_leaves_state_unchanged.2.2.2.1
      { SistemaVotacion.new 100 with
        elecciones := [Eleccion.new 1 "p" ⟨0, 0, 0, 1, 1, 1970, 100⟩
          ⟨0, 0, 0, 2, 1, 1970, 200⟩] }
      100 1 5 .Votante .Aprobado 50 .VotanteNoExistente _ (by rfl)⟩

/-- `Eleccion::existe_usuario` decides membership of the identity in the
concatenation of the four membership lists. -/
theorem existe_usuario_iff (e : Eleccion) (a : AccountId) :
    e.existe_usuario a = true ↔ a ∈ e.ids_miembros := by
  simp only [Eleccion.existe_usuario, Eleccion.ids_miembros, Bool.or_eq_true,
    List.any_eq_true, List.mem_append, List.mem_map, beq_iff_eq]

/-- Adding a member whose identity is absent from all four lists preserves
the membership invariant. -/
theorem anadir_preserva_exclusiva (e : Eleccion) (a : AccountId) (rol : Rol)
    (t : Nat) (hex : e.existe_usuario a = false)
    (hinv : e.membresia_exclusiva) :
    (e.anadir_miembro a rol t).2.membresia_exclusiva := by
  have hna : a ∉ e.ids_miembros := fun hmem => by
    rw [← existe_usuario_iff] at hmem
    rw [hex] at hmem
    exact Bool.false_ne_true hmem
  unfold Eleccion.anadir_miembro
  cases hEst : e.consultar_estado t with
  | EnCurso => exact hinv
  | Finalizada => exact hinv
  | Pendiente =>
    cases rol with
    | Candidato =>
      have hperm : List.Perm (a :: e.ids_miembros)
          (Eleccion.ids_miembros { e with candidatos_pendientes :=
            e.candidatos_pendientes ++ [Candidato.new a] }) := by
        rw [List.perm_iff_count]
        intro b
        simp only [Eleccion.ids_miembros, List.map_append, List.count_append,
          List.count_cons, List.map_cons, List.map_nil, Candidato.new,
          List.count_nil, List.count_singleton']
        by_cases hba : b = a <;> simp [hba] <;> omega
      exact hperm.nodup (List.nodup_cons.mpr ⟨hna, hinv⟩)
    | Votante =>
      have hperm : List.Perm (a :: e.ids_miembros)
          (Eleccion.ids_miembros { e with votantes_pendientes :=
            e.votantes_pendientes ++ [Votante.new a] }) := by
        rw [List.perm_iff_count]
        intro b
        simp only [Eleccion.ids_miembros, List.map_append, List.count_append,
          List.count_cons, List.map_cons, List.map_nil, Votante.new,
          List.count_nil, List.count_singleton']
        by_cases hba : b = a <;> simp [hba] <;> omega
      exact hperm.nodup (List.nodup_cons.mpr ⟨hna, hinv⟩)

/-- Approving a member only moves an entry between two lists of the same
election, so the membership invariant is preserved. -/
theorem aprobar_preserva_exclusiva (e : Eleccion) (a : AccountId) (rol : Rol)
    (hinv : e.membresia_exclusiva) :
    (e.aprobar_miembro a rol).2.membresia_exclusiva := by
  cases rol with
  | Candidato =>
    simp only [Eleccion.aprobar_miembro]
    cases hrem : removeFirstBy (fun c => c.id == a) e.candidatos_pendientes with
    | none => exact hinv
    | some pr =>
      obtain ⟨x, resto⟩ := pr
      have hp := (removeFirstBy_perm _ hrem).map (fun c : Candidato => c.id)
      have hperm : List.Perm e.ids_miembros (Eleccion.ids_miembros
          { e with
            candidatos_pendientes := resto,
            candidatos_aprobados := e.candidatos_aprobados ++ [x] }) := by
        rw [List.perm_iff_count]
        intro b
        have hb := hp.count_eq b
        simp only [List.map_cons, List.count_cons] at hb
        simp only [Eleccion.ids_miembros, List.map_append, List.count_append,
          List.map_cons, List.map_nil, List.count_cons, List.count_nil]
        by_cases hbx : b = x.id <;> simp [hbx] at hb ⊢ <;> omega
      exact hperm.nodup hinv
  | Votante =>
    simp only [Eleccion.aprobar_miembro]
    cases hrem : removeFirstBy (fun v => v.id == a) e.votantes_pendientes with
    | none => exact hinv
    | some pr =>
      obtain ⟨x, resto⟩ := pr
      have hp := (removeFirstBy_perm _ hrem).map (fun v : Votante => v.id)
      have hperm : List.Perm e.ids_miembros (Eleccion.ids_miembros
          { e with
            votantes_pendientes := resto,
            votantes_aprobados := e.votantes_aprobados ++ [x] }) := by
        rw [List.perm_iff_count]
        intro b
        have hb := hp.count_eq b
        simp only [List.map_cons, List.count_cons] at hb
        simp only [Eleccion.ids_miembros, List.map_append, List.count_append,
          List.map_cons, List.map_nil, List.count_cons, List.count_nil]
        by_cases hbx : b = x.id <;> simp [hbx] at hb ⊢ <;> omega
      exact hperm.nodup hinv

/-- Rejecting a member removes an entry, so the membership invariant is
preserved. -/
theorem rechazar_preserva_exclusiva (e : Eleccion) (a : AccountId) (rol : Rol)
    (hinv : e.membresia_exclusiva) :
    (e.rechazar_miembro a rol).2.membresia_exclusiva := by
  cases rol with
  | Candidato =>
    simp only [Eleccion.rechazar_miembro]
    cases hrem : removeFirstBy (fun c => c.id == a) e.candidatos_pendientes with
    | none => exact hinv
    | some pr =>
      obtain ⟨x, resto⟩ := pr
      have hsub := (removeFirstBy_sublist _ hrem).map (fun c : Candidato => c.id)
      refine List.Nodup.sublist ?_ hinv
      show (Eleccion.ids_miembros
          { e with candidatos_pendientes := resto }).Sublist e.ids_miembros
      simp only [Eleccion.ids_miembros]
      exact ((List.Sublist.refl _).append hsub).append (List.Sublist.refl _)
  | Votante =>
    simp only [Eleccion.rechazar_miembro]
    cases hrem : removeFirstBy (fun v => v.id == a) e.votantes_pendientes with
    | none => exact hinv
    | some pr =>
      obtain ⟨x, resto⟩ := pr
      have hsub := (removeFirstBy_sublist _ hrem).map (fun v : Votante => v.id)
      refine List.Nodup.sublist ?_ hinv
      show (Eleccion.ids_miembros
          { e with votantes_pendientes := resto }).Sublist e.ids_miembros
      simp only [Eleccion.ids_miembros]
      exact ((hsub.append (List.Sublist.refl _)).append
        (List.Sublist.refl _)).append (List.Sublist.refl _)

/-- `Eleccion::votar` only flips a flag and bumps a counter; the identities
of the four lists are untouched. -/
theorem votar_preserva_ids (e : Eleccion) (vid cid : AccountId) (t : Nat) :
    (e.votar vid cid t).2.ids_miembros = e.ids_miembros := by
  unfold Eleccion.votar
  cases hEst : e.consultar_estado t with
  | Pendiente => rfl
  | Finalizada => rfl
  | EnCurso =>
    by_cases hc : (e.buscar_candidato_aprobado cid).isNone = true
    · simp [hc]
    · simp only [Bool.not_eq_true] at hc
      simp only [hc, Bool.false_eq_true, if_false]
      cases hv : e.buscar_votante_aprobado vid with
      | none => rfl
      | some v =>
        by_cases hw : v.ha_votado = true
        · simp [hw]
        · simp only [Bool.not_eq_true] at hw
          simp only [hw, Bool.false_eq_true, if_false]
          simp only [Eleccion.ids_miembros]
          rw [map_updateFirstBy (fun (w : Votante) => w.id == vid)
                (fun w => { w with ha_votado := true })
                (fun w => w.id) (fun x => rfl),
              map_updateFirstBy (fun (c0 : Candidato) => c0.id == cid)
                (fun c0 => { c0 with votos := c0.votos + 1 })
                (fun c0 => c0.id) (fun x => rfl)]

/-- A vote preserves the membership invariant. -/
theorem votar_preserva_exclusiva (e : Eleccion) (vid cid : AccountId) (t : Nat)
    (hinv : e.membresia_exclusiva) :
    (e.votar vid cid t).2.membresia_exclusiva := by
  unfold Eleccion.membresia_exclusiva at *
  rw [votar_preserva_ids]
  exact hinv

/-- Writing back one election with the invariant into a repository all of
whose elections satisfy it keeps the invariant system-wide. -/
theorem inv_membresia_set (s : SistemaVotacion) (i : Nat) (e' : Eleccion)
    (hinv : s.inv_membresia) (he' : e'.membresia_exclusiva) :
    ∀ e ∈ s.elecciones.set i e', e.membresia_exclusiva := by
  intro e he
  rcases List.mem_or_eq_of_mem_set he with h | h
  · exact hinv e h
  · rw [h]; exact he'

/-- An element read by index is a member of the list. -/
theorem mem_of_getElem?_eq_some :
    ∀ {α : Type} {l : List α} {i : Nat} {a : α}, l[i]? = some a → a ∈ l := by
  intro α l
  induction l with
  | nil => intro i a h; simp at h
  | cons x xs ih =>
    intro i a h
    cases i with
    | zero => simp_all
    | succ n =>
      simp only [List.getElem?_cons_succ] at h
      exact List.mem_cons_of_mem x (ih h)

/-- C4: membership exclusivity.  Whenever every election of the system
satisfies the membership invariant (each identity occurs at most once across
the four lists), every public mutating operation preserves it; the invariant
entails the claim's exclusivity — no identity occurs in two distinct lists of
one election; and `registrar_en_eleccion` fails `MiembroExistente` whenever
the registered caller is already present in either pending or approved list
of either role of the addressed election. -/
theorem c4_membership_exclusive_invariant :
    (∀ (s : SistemaVotacion) (caller : AccountId) (nombre apellido dni : String),
        s.inv_membresia →
        (s.registrar_usuario caller nombre apellido dni).2.inv_membresia)
    ∧ (∀ (s : SistemaVotacion) (caller : AccountId) (idv : Nat) (rol : Rol)
        (t : Nat) (r : Except Error Unit × SistemaVotacion),
        s.inv_membresia → s.registrar_en_eleccion caller idv rol t = some r →
        r.2.inv_membresia)
    ∧ (∀ (s : SistemaVotacion) (caller : AccountId) (puesto : String)
        (mi hi di mesi ai minf horf dif mesf anf : Nat)
        (r : Except Error Nat × SistemaVotacion),
        s.inv_membresia →
        s.crear_eleccion caller puesto mi hi di mesi ai minf horf dif mesf anf
          = some r → r.2.inv_membresia)
    ∧ (∀ (s : SistemaVotacion) (caller : AccountId) (idv : Nat) (m : AccountId)
        (rol : Rol) (estado : EstadoAprobacion) (t : Nat)
        (r : Except Error Unit × SistemaVotacion),
        s.inv_membresia →
        s.cambiar_estado_aprobacion caller idv m rol estado t = some r →
        r.2.inv_membresia)
    ∧ (∀ (s : SistemaVotacion) (caller : AccountId) (idv : Nat)
        (cand : AccountId) (t : Nat) (r : Except Error Unit × SistemaVotacion),
        s.inv_membresia → s.votar caller idv cand t = some r →
        r.2.inv_membresia)
    ∧ (∀ (s : SistemaVotacion) (caller na : AccountId),
        s.inv_membresia → (s.delegar_admin caller na).2.inv_membresia)
    ∧ (∀ (s : SistemaVotacion) (caller ca : AccountId),
        s.inv_membresia →
        (s.delegar_contrato_reportes caller ca).2.inv_membresia)
    ∧ (∀ (e : Eleccion), e.membresia_exclusiva → ∀ a : AccountId,
        ¬(a ∈ e.votantes_pendientes.map (fun v => v.id)
           ∧ a ∈ e.votantes_aprobados.map (fun v => v.id))
        ∧ ¬(a ∈ e.votantes_pendientes.map (fun v => v.id)
           ∧ a ∈ e.candidatos_pendientes.map (fun c => c.id))
        ∧ ¬(a ∈ e.votantes_pendientes.map (fun v => v.id)
           ∧ a ∈ e.candidatos_aprobados.map (fun c => c.id))
        ∧ ¬(a ∈ e.votantes_aprobados.map (fun v => v.id)
           ∧ a ∈ e.candidatos_pendientes.map (fun c => c.id))
        ∧ ¬(a ∈ e.votantes_aprobados.map (fun v => v.id)
           ∧ a ∈ e.candidatos_aprobados.map (fun c => c.id))
        ∧ ¬(a ∈ e.candidatos_pendientes.map (fun c => c.id)
           ∧ a ∈ e.candidatos_aprobados.map (fun c => c.id)))
    ∧ (∀ (s : SistemaVotacion) (caller : AccountId) (idv : Nat) (rol : Rol)
        (t : Nat) (votacion : Eleccion),
        (s.usuarios.lookup caller).isSome = true → (idv == 0) = false →
        s.elecciones[idv - 1]? = some votacion →
        votacion.existe_usuario caller = true →
        s.registrar_en_eleccion caller idv rol t
          = some (.error .MiembroExistente, s)) := by
  refine ⟨?_, ?_, ?_, ?_, ?_, ?_, ?_, ?_, ?_⟩
  · intro s caller nombre apellido dni hinv
    simp only [SistemaVotacion.registrar_usuario]
    split
    · exact hinv
    · split
      · exact hinv
      · exact hinv
  · intro s caller idv rol t r hinv h
    simp only [SistemaVotacion.registrar_en_eleccion] at h
    split at h
    · simp only [Option.some.injEq] at h; subst h; exact hinv
    · split at h
      · simp at h
      · split at h
        · simp only [Option.some.injEq] at h; subst h; exact hinv
        · rename_i votacion hget
          split at h
          · simp only [Option.some.injEq] at h; subst h; exact hinv
          · rename_i hexu
            split at h
            · rename_i u v' heq
              simp only [Option.some.injEq] at h
              subst h
              have hvm : votacion ∈ s.elecciones := mem_of_getElem?_eq_some hget
              have hx : votacion.existe_usuario caller = false := by
                simpa using hexu
              have hpres := anadir_preserva_exclusiva votacion caller rol t hx
                (hinv votacion hvm)
              rw [heq] at hpres
              exact inv_membresia_set s (idv - 1) v' hinv hpres
            · simp only [Option.some.injEq] at h; subst h; exact hinv
  · intro s caller puesto mi hi di mesi ai minf horf dif mesf anf r hinv h
    simp only [SistemaVotacion.crear_eleccion] at h
    split at h
    · simp only [Option.some.injEq] at h; subst h; exact hinv
    · split at h
      · simp at h
      · split at h
        · simp at h
        · split at h
          · simp only [Option.some.injEq] at h; subst h; exact hinv
          · simp only [Option.some.injEq] at h
            subst h
            intro e he
            rcases List.mem_append.mp he with hmem | hmem
            · exact hinv e hmem
            · rw [List.mem_singleton.mp hmem]
              simp [Eleccion.membresia_exclusiva, Eleccion.ids_miembros,
                Eleccion.new]
  · intro s caller idv m rol estado t r hinv h
    simp only [SistemaVotacion.cambiar_estado_aprobacion] at h
    split at h
    · simp only [Option.some.injEq] at h; subst h; exact hinv
    · split at h
      · simp at h
      · split at h
        · simp only [Option.some.injEq] at h; subst h; exact hinv
        · rename_i votacion hget
          split at h
          · simp only [Option.some.injEq] at h; subst h; exact hinv
          · simp only [Option.some.injEq] at h; subst h; exact hinv
          · simp only [Option.some.injEq] at h
            subst h
            have hvm : votacion ∈ s.elecciones := mem_of_getElem?_eq_some hget
            have hpres : (match estado with
                | EstadoAprobacion.Aprobado => votacion.aprobar_miembro m rol
                | EstadoAprobacion.Rechazado =>
                    votacion.rechazar_miembro m rol).2.membresia_exclusiva := by
              cases estado with
              | Aprobado =>
                exact aprobar_preserva_exclusiva votacion m rol (hinv votacion hvm)
              | Rechazado =>
                exact rechazar_preserva_exclusiva votacion m rol (hinv votacion hvm)
            exact inv_membresia_set s (idv - 1) _ hinv hpres
  · intro s caller idv cand t r hinv h
    simp only [SistemaVotacion.votar] at h
    split at h
    · simp at h
    · split at h
      · simp only [Option.some.injEq] at h; subst h; exact hinv
      · rename_i eleccion hget
        split at h
        · rename_i u e' heq
          simp only [Option.some.injEq] at h
          subst h
          have hvm : eleccion ∈ s.elecciones := mem_of_getElem?_eq_some hget
          have hpres := votar_preserva_exclusiva eleccion caller cand t
            (hinv eleccion hvm)
          rw [heq] at hpres
          exact inv_membresia_set s (idv - 1) e' hinv hpres
        · simp only [Option.some.injEq] at h; subst h; exact hinv
  · intro s caller na hinv
    simp only [SistemaVotacion.delegar_admin]
    split
    · exact hinv
    · exact hinv
  · intro s caller ca hinv
    simp only [SistemaVotacion.delegar_contrato_reportes]
    split
    · exact hinv
    · exact hinv
  · intro e hinv a
    unfold Eleccion.membresia_exclusiva Eleccion.ids_miembros at hinv
    rw [List.nodup_append] at hinv
    obtain ⟨h123, hCA, d3⟩ := hinv
    rw [List.nodup_append] at h123
    obtain ⟨h12, hCP, d2⟩ := h123
    rw [List.nodup_append] at h12
    obtain ⟨hVP, hVA, d1⟩ := h12
    refine ⟨?_, ?_, ?_, ?_, ?_, ?_⟩ <;> rintro ⟨hx, hy⟩
    · exact d1 hx hy
    · exact d2 (by simp [List.mem_append, hx]) hy
    · exact d3 (by simp [List.mem_append, hx]) hy
    · exact d2 (by simp [List.mem_append, hx]) hy
    · exact d3 (by simp [List.mem_append, hx]) hy
    · exact d3 (by simp [List.mem_append, hx]) hy
  · intro s caller idv rol t votacion hreg hz hget hex
    cases hcase : s.usuarios.lookup caller with
    | none => rw [hcase] at hreg; simp at hreg
    | some u =>
      simp [SistemaVotacion.registrar_en_eleccion, hcase, hz, hget, hex]

/-- C4 witness: with user 1 already pending as voter in the only election,
registering a fresh user preserves the invariant, identity 1 is in no second
list, and user 1 joining the same election again (as candidate) fails
`MiembroExistente` with the state unchanged. -/
theorem c4_witness :
    let eP : Eleccion :=
      { id := 1, votantes_pendientes := [⟨1, false⟩], votantes_aprobados := [],
        candidatos_pendientes := [], candidatos_aprobados := [],
        puesto := "p", inicio := ⟨0, 0, 0, 1, 1, 1970, 100⟩,
        fin := ⟨0, 0, 0, 2, 1, 1970, 200⟩ }
    let s : SistemaVotacion :=
      { admin := 100, contrato_reportes := none, elecciones := [eP],
        id_usuarios := [("11", 1)], usuarios := [(1, Usuario.new "A" "B" "11")] }
    ((s.registrar_usuario 2 "X" "Y" "22").2.inv_membresia)
    ∧ ¬((1 : AccountId) ∈ eP.votantes_pendientes.map (fun v => v.id)
        ∧ (1 : AccountId) ∈ eP.votantes_aprobados.map (fun v => v.id))
    ∧ s.registrar_en_eleccion 1 1 .Candidato 0
        = some (.error .MiembroExistente, s) :=
  ⟨c4_membership_exclusive_invariant.1 _ 2 "X" "Y" "22"
      (fun e he => by
        rw [List.mem_singleton.mp he]
        unfold Eleccion.membresia_exclusiva
        decide),
   (c4_membership_exclusive_invariant.2.2.2.2.2.2.2.1 _
      (by unfold Eleccion.membresia_exclusiva; decide) 1).1,
   c4_membership_exclusive_invariant.2.2.2.2.2.2.2.2 _ 1 1 .Candidato 0 _
     (by rfl) (by decide) (by rfl) (by rfl)⟩
